import Mathlib

set_option maxHeartbeats 1000000

/-!
Verification development for the npm-helper-mcp server (src/index.ts).

The file gives a shallow embedding of the request-gating and dispatch layer
of the server: the JavaScript value model used by the result-shaping
functions, the result shapers themselves (search mapping, version-list
extraction, package-detail trimming, page-text assembly), the display
formatters, the tool dispatcher with its timeout race and error boundary,
the npm-check-updates handler layer, and the rate limiter together with an
event-loop simulation of its timer-driven queue processing.

Conventions of the embedding:
* JavaScript values are modelled by the inductive type JsValue; member
  access on undefined or null raises a TypeError, mirrored by Except.
  The string carried by Except is the error's message property - the text
  that the handlers' catch blocks read through error.message and wrap -
  so it excludes the error's name. Quote characters inside the original
  messages are omitted.
* Times are naturals measured in milliseconds from the scenario origin.
* new Date(x).toLocaleDateString() and Number.prototype.toString are
  external total builtins; they are modelled by total functions, which is
  the only property of them this development relies on.
-/

/-- Model of a JavaScript runtime value as observed by the shaping code:
undefined, null, booleans, numbers, strings, arrays and plain objects whose
fields keep insertion order. -/
inductive JsValue where
  | undefined
  | jsNull
  | bool (b : Bool)
  | num (n : Int)
  | str (s : String)
  | arr (elems : List JsValue)
  | obj (fields : List (String × JsValue))
deriving BEq

/-- Field lookup in an object's insertion-ordered field list. -/
def lookupField : List (String × JsValue) → String → Option JsValue
  | [], _ => none
  | (k, v) :: rest, key => if k = key then some v else lookupField rest key

/-- JavaScript member access o.key: throws a TypeError on undefined and on
null, yields the field (or undefined) on objects, and undefined on other
primitives. The carried string is the TypeError's message (the name is not
part of the message). -/
def jsGet : JsValue → String → Except String JsValue
  | .undefined, key => .error ("Cannot read properties of undefined (reading " ++ key ++ ")")
  | .jsNull, key => .error ("Cannot read properties of null (reading " ++ key ++ ")")
  | .obj fields, key => .ok ((lookupField fields key).getD .undefined)
  | _, _ => .ok .undefined

/-- JavaScript optional-chain access o?.key: short-circuits to undefined on
a nullish base instead of throwing. -/
def jsGetOpt : JsValue → String → Except String JsValue
  | .undefined, _ => .ok .undefined
  | .jsNull, _ => .ok .undefined
  | v, key => jsGet v key

/-- JavaScript truthiness. -/
def jsTruthy : JsValue → Bool
  | .undefined => false
  | .jsNull => false
  | .bool b => b
  | .num n => n != 0
  | .str s => s != ""
  | .arr _ => true
  | .obj _ => true

/-- Nullish test (undefined or null), the guard used by ?. chains. -/
def jsNullish : JsValue → Bool
  | .undefined => true
  | .jsNull => true
  | _ => false

/-- Model of JavaScript toString on the values the shaping code converts. -/
def jsToString : JsValue → String
  | .undefined => "undefined"
  | .jsNull => "null"
  | .bool b => if b then ("true") else ("false")
  | .num n => toString n
  | .str s => s
  | .arr _ => ""
  | .obj _ => "[object Object]"

/-- Model of new Date(x).toLocaleDateString(): an external total builtin
that returns a date string for string inputs and the string Invalid Date
otherwise; totality (it never throws) is the only property used here. -/
def jsDateLocale : JsValue → String
  | .str s => s
  | _ => "Invalid Date"

/-- The per-result mapping body of NpmSearcher.searchPackages
(src/index.ts lines 222-232): builds the NpmPackageInfo object literal for
one element of data.objects, with plain accesses on obj.package (which
throw when package is missing) and optional chains on author, links and
score exactly as in the source. -/
def shapeSearchObject (o : JsValue) : Except String JsValue := do
  let pkg ← jsGet o ("package")
  let name ← jsGet pkg ("name")
  let version ← jsGet pkg ("version")
  let description ← jsGet pkg ("description")
  let authorVal ← jsGet pkg ("author")
  let author ← jsGetOpt authorVal ("name")
  let links ← jsGet pkg ("links")
  let homepage ← jsGetOpt links ("homepage")
  let repository ← jsGetOpt links ("repository")
  let keywordsRaw ← jsGet pkg ("keywords")
  let keywords := if jsTruthy keywordsRaw then keywordsRaw else JsValue.arr []
  let score ← jsGet o ("score")
  let detail ← jsGetOpt score ("detail")
  let maintenance ← jsGetOpt detail ("maintenance")
  let weeklyDownloads := if jsNullish maintenance then JsValue.undefined
    else JsValue.str (jsToString maintenance)
  let date ← jsGet pkg ("date")
  let lastPublish := JsValue.str (jsDateLocale date)
  pure (JsValue.obj [(("name"), name), (("version"), version), (("description"), description),
    (("author"), author), (("homepage"), homepage), (("repository"), repository),
    (("keywords"), keywords), (("weeklyDownloads"), weeklyDownloads),
    (("lastPublish"), lastPublish)])

/-- Array.prototype.map applied through member access: a TypeError message
on a nullish receiver, a TypeError message on a non-array receiver, the
element list on an array. -/
def jsMapElems : JsValue → Except String (List JsValue)
  | .arr elems => .ok elems
  | .undefined => .error ("Cannot read properties of undefined (reading map)")
  | .jsNull => .error ("Cannot read properties of null (reading map)")
  | _ => .error ("map is not a function")

/-- JavaScript Array.prototype.map with a callback that may throw: the
first thrown error aborts the whole map. -/
def mapThrow (f : JsValue → Except String JsValue) : List JsValue → Except String (List JsValue)
  | [] => .ok []
  | x :: xs =>
    match f x with
    | .error e => .error e
    | .ok y =>
      match mapThrow f xs with
      | .error e => .error e
      | .ok ys => .ok (y :: ys)

/-- The result-shaping part of NpmSearcher.searchPackages (src/index.ts
lines 221-235): data.objects.map over the per-result mapping, paired with
data.total as totalResults. -/
def searchPackagesShape (data : JsValue) : Except String JsValue := do
  let objects ← jsGet data ("objects")
  let elems ← jsMapElems objects
  let packages ← mapThrow shapeSearchObject elems
  let total ← jsGet data ("total")
  pure (JsValue.obj [(("packages"), JsValue.arr packages), (("totalResults"), total)])

/-- NpmSearcher.searchPackages with its catch block (src/index.ts lines
236-238), which wraps any thrown error. -/
def searchPackages (data : JsValue) : Except String JsValue :=
  match searchPackagesShape data with
  | .ok r => .ok r
  | .error e => .error ("Error searching npm packages: " ++ e)

/-- Object.keys: a TypeError message on nullish input, the
insertion-ordered key list on objects, index keys on strings, empty on
other primitives. -/
def jsObjectKeys : JsValue → Except String (List String)
  | .obj fields => .ok (fields.map Prod.fst)
  | .undefined => .error ("Cannot convert undefined or null to object")
  | .jsNull => .error ("Cannot convert undefined or null to object")
  | .str s => .ok ((List.range s.length).map toString)
  | _ => .ok []

/-- The result-shaping part of NpmSearcher.getPackageVersions (src/index.ts
lines 280-284): Object.keys(data.versions).reverse(). -/
def getPackageVersionsShape (data : JsValue) : Except String (List String) := do
  let versions ← jsGet data ("versions")
  let keys ← jsObjectKeys versions
  pure keys.reverse

/-- NpmSearcher.getPackageVersions with its catch block (src/index.ts lines
285-287). -/
def getPackageVersions (data : JsValue) : Except String (List String) :=
  match getPackageVersionsShape data with
  | .ok r => .ok r
  | .error e => .error ("Error fetching package versions: " ++ e)

/-- Object.entries: a TypeError message on nullish input, the
insertion-ordered field list on objects, indexed characters on strings,
empty on other primitives. -/
def jsObjectEntries : JsValue → Except String (List (String × JsValue))
  | .obj fields => .ok fields
  | .undefined => .error ("Cannot convert undefined or null to object")
  | .jsNull => .error ("Cannot convert undefined or null to object")
  | .str s => .ok (s.data.enum.map (fun p => (toString p.1, JsValue.str (String.mk [p.2]))))
  | _ => .ok []

/-- JavaScript slice(-n) on a list: the last n entries, or the whole list
when it is shorter. -/
def jsSliceNeg (n : Nat) (l : List α) : List α := l.drop (l.length - n)

/-- The per-version trimming of NpmSearcher.getPackageDetails (src/index.ts
lines 313-324): keeps exactly name, version, description, main and the
three dependency maps of a version-details object. -/
def shapeVersionDetails (details : JsValue) : Except String JsValue := do
  let name ← jsGet details ("name")
  let version ← jsGet details ("version")
  let description ← jsGet details ("description")
  let mainEntry ← jsGet details ("main")
  let dependencies ← jsGet details ("dependencies")
  let devDependencies ← jsGet details ("devDependencies")
  let peerDependencies ← jsGet details ("peerDependencies")
  pure (JsValue.obj [(("name"), name), (("version"), version), (("description"), description),
    (("main"), mainEntry), (("dependencies"), dependencies),
    (("devDependencies"), devDependencies), (("peerDependencies"), peerDependencies)])

/-- Object.fromEntries of a map over key-value pairs whose callback may
throw, keeping keys: the first thrown error aborts, as in JavaScript. -/
def mapThrowPairs (f : JsValue → Except String JsValue) :
    List (String × JsValue) → Except String (List (String × JsValue))
  | [] => .ok []
  | (k, v) :: rest =>
    match f v with
    | .error e => .error e
    | .ok w =>
      match mapThrowPairs f rest with
      | .error e => .error e
      | .ok ws => .ok ((k, w) :: ws)

/-- The time-map trimming of NpmSearcher.getPackageDetails (src/index.ts
lines 326-334): data.time ? created and modified plus the last 10 other
entries : undefined. -/
def shapeTime (timeVal : JsValue) : Except String JsValue :=
  if jsTruthy timeVal then do
    let created ← jsGet timeVal ("created")
    let modified ← jsGet timeVal ("modified")
    let entries ← jsObjectEntries timeVal
    let rest := jsSliceNeg 10
      (entries.filter (fun kv => !(kv.1 == "created" || kv.1 == "modified")))
    pure (JsValue.obj ([(("created"), created), (("modified"), modified)] ++ rest))
  else pure JsValue.undefined

/-- The result-shaping part of NpmSearcher.getPackageDetails (src/index.ts
lines 298-338): the processedData object literal, with versions limited to
Object.entries(data.versions).slice(-10) each trimmed by
shapeVersionDetails, and the time map trimmed by shapeTime. -/
def getPackageDetailsShape (data : JsValue) : Except String JsValue := do
  let name ← jsGet data ("name")
  let description ← jsGet data ("description")
  let distTags ← jsGet data ("dist-tags")
  let maintainers ← jsGet data ("maintainers")
  let homepage ← jsGet data ("homepage")
  let repository ← jsGet data ("repository")
  let license ← jsGet data ("license")
  let versionsVal ← jsGet data ("versions")
  let versionEntries ← jsObjectEntries versionsVal
  let shapedVersions ← mapThrowPairs shapeVersionDetails (jsSliceNeg 10 versionEntries)
  let timeVal ← jsGet data ("time")
  let time ← shapeTime timeVal
  pure (JsValue.obj [(("name"), name), (("description"), description),
    (("dist-tags"), distTags), (("maintainers"), maintainers), (("homepage"), homepage),
    (("repository"), repository), (("license"), license),
    (("versions"), JsValue.obj shapedVersions), (("time"), time)])

/-- NpmSearcher.getPackageDetails with its catch block (src/index.ts lines
339-341). -/
def getPackageDetails (data : JsValue) : Except String JsValue :=
  match getPackageDetailsShape data with
  | .ok r => .ok r
  | .error e => .error ("Error fetching package details: " ++ e)

/-- NpmSearcher.formatVersions (src/index.ts lines 356-362). -/
def formatVersions (packageName : String) (versions : List String) : String :=
  if versions.isEmpty then "No versions found for " ++ packageName ++ "."
  else
    "📦 " ++ packageName ++ "\nAvailable versions (newest first):\n"
      ++ String.intercalate (", ") (versions.take 15)
      ++ (if 15 < versions.length then
            "\n...and " ++ toString (versions.length - 15) ++ " more versions"
          else "")

/-- The NpmPackageInfo interface (src/index.ts lines 117-127). -/
structure NpmPackageInfo where
  name : String
  version : String
  description : String
  author : Option String := none
  homepage : Option String := none
  repository : Option String := none
  keywords : List String := []
  lastPublish : Option String := none
  weeklyDownloads : Option String := none

/-- The NpmSearchResult interface (src/index.ts lines 129-132). -/
structure NpmSearchResult where
  packages : List NpmPackageInfo
  totalResults : Nat

/-- The per-package block appended by NpmSearcher.formatSearchResults
(src/index.ts lines 347-352): the name line, an optional description line,
an optional author line and a blank line. -/
def formatPackageEntry (pkg : NpmPackageInfo) : String :=
  "📦 " ++ pkg.name ++ "@" ++ pkg.version ++ "\n"
    ++ (if pkg.description != "" then "   Description: " ++ pkg.description ++ "\n" else "")
    ++ (match pkg.author with
        | some a => if a != "" then "   Author: " ++ a ++ "\n" else ""
        | none => "")
    ++ "\n"

/-- NpmSearcher.formatSearchResults (src/index.ts lines 344-354). -/
def formatSearchResults (results : NpmSearchResult) : String :=
  if results.packages.isEmpty then "No packages found."
  else
    "Found " ++ toString results.totalResults ++ " packages (showing "
      ++ toString results.packages.length ++ "):\n\n"
      ++ String.join (results.packages.map formatPackageEntry)

/-- JavaScript String.prototype.substring(0, n), modelled on the character
list of the string. -/
def jsSubstring (s : String) (n : Nat) : String := String.mk (s.data.take n)

/-- The truncation marker appended to an over-long README body
(src/index.ts line 262). -/
def readmeMarker : String := "...\n[README content truncated]"

/-- The README body rendering of NpmSearcher.fetchPackageContent
(src/index.ts line 262): hard cap at 4000 characters with the truncation
marker appended when the body exceeds the cap. -/
def renderReadme (readme : String) : String :=
  if 4000 < readme.length then jsSubstring readme 4000 ++ readmeMarker else readme

/-- The content assembly of NpmSearcher.fetchPackageContent (src/index.ts
lines 253-266), starting from the four extracted page texts: optional
Package, Version and Description lines, the capped README body, and the
fallback text when everything is empty. -/
def buildPackageContent (packageName packageVersion description readme : String) : String :=
  let c0 : String := ""
  let c1 := if packageName != "" then c0 ++ "Package: " ++ packageName ++ "\n" else c0
  let c2 := if packageVersion != "" then c1 ++ "Version: " ++ packageVersion ++ "\n" else c1
  let c3 := if description != "" then c2 ++ "Description: " ++ description ++ "\n\n" else c2
  let c4 := if readme != "" then c3 ++ "README:\n" ++ renderReadme readme else c3
  if c4 = "" then "No extractable content found." else c4

/-- The MCP SDK error codes used by the dispatcher (imported from
@modelcontextprotocol/sdk). -/
inductive McpErrorCode where
  | invalidParams
  | methodNotFound
deriving DecidableEq

/-- The ToolResult shape returned by every handler branch (src/index.ts
lines 543-546): content segments of (type, text) plus the isError flag. -/
structure ToolResult where
  content : List (String × String)
  isError : Bool := false
deriving DecidableEq

/-- A thrown JavaScript error as distinguished by the dispatcher's catch
block: an McpError (rethrown as a protocol-level error) or any other Error
(converted to an isError envelope). -/
inductive JsError where
  | mcp (code : McpErrorCode) (message : String)
  | err (message : String)
deriving DecidableEq

/-- The invocation-level timeout (src/index.ts line 605). -/
def toolTimeout : Nat := 30000

/-- The message of the rejection fired by the timeout promise
(src/index.ts line 607). -/
def timeoutMessage : String :=
  "Tool execution timed out after " ++ toString (toolTimeout / 1000) ++ "s"

/-- Settlement of an asynchronous computation: none when it never settles,
some (t, r) when it settles at time t with outcome r. A JavaScript promise
settles at most once, which this representation embeds. -/
abbrev Settlement := Option (Nat × Except JsError ToolResult)

/-- Promise.race([resultPromise, timeoutPromise]) (src/index.ts lines
606-683): the earlier settlement wins; the timeout promise rejects with
timeoutMessage at toolTimeout; a handler settling no later than the
deadline wins the tie. Exactly one settlement is produced. -/
def raceWithTimeout (handler : Settlement) : Nat × Except JsError ToolResult :=
  match handler with
  | none => (toolTimeout, .error (.err timeoutMessage))
  | some (t, r) =>
    if t ≤ toolTimeout then (t, r) else (toolTimeout, .error (.err timeoutMessage))

/-- What one invocation surfaces to the caller: a ResponseEnvelope, or a
protocol-level structured error for McpError rethrow. -/
inductive DispatchOutcome where
  | envelope (result : ToolResult)
  | protocolError (code : McpErrorCode) (message : String)
deriving DecidableEq

/-- The dispatcher's catch block (src/index.ts lines 705-723): McpError is
rethrown as a protocol-level error; any other error becomes a single-text
isError envelope carrying the error message. -/
def catchBoundary : Except JsError ToolResult → DispatchOutcome
  | .ok r => .envelope r
  | .error (.mcp c m) => .protocolError c m
  | .error (.err m) => .envelope { content := [(("text"), m)], isError := true }

/-- Observable side effects of a handler branch: acquiring the rate
limiter's gate, or running a named handler body. -/
inductive DispatchEvent where
  | gateAcquire
  | handlerRun (tool : String)
deriving DecidableEq

/-- The behaviors of the ten tool-handler branches of the switch, each
mapping the argument bag to a settlement plus its emitted effects. They
are abstract here: the dispatcher theorems hold for every behavior. -/
structure ToolHandlers where
  searchNpm : JsValue → Settlement × List DispatchEvent
  fetchContent : JsValue → Settlement × List DispatchEvent
  getVersions : JsValue → Settlement × List DispatchEvent
  getDetails : JsValue → Settlement × List DispatchEvent
  checkUpdatesTool : JsValue → Settlement × List DispatchEvent
  upgradePackagesTool : JsValue → Settlement × List DispatchEvent
  filterUpdatesTool : JsValue → Settlement × List DispatchEvent
  resolveConflictsTool : JsValue → Settlement × List DispatchEvent
  setVersionConstraintsTool : JsValue → Settlement × List DispatchEvent
  runDoctorTool : JsValue → Settlement × List DispatchEvent

/-- The tool names declared by the ListTools handler and matched by the
dispatcher's switch (src/index.ts lines 554-563 and 612-677). -/
def declaredToolNames : List String :=
  [("search_npm"), ("fetch_package_content"), ("get_package_versions"),
   ("get_package_details"), ("check_updates"), ("upgrade_packages"),
   ("filter_updates"), ("resolve_conflicts"), ("set_version_constraints"),
   ("run_doctor")]

/-- The dispatcher's switch on the operation name (src/index.ts lines
612-677): a matching case runs its handler branch; the default case throws
McpError MethodNotFound at once, with no effects. -/
def dispatchSwitch (h : ToolHandlers) (name : String) (args : JsValue) :
    Settlement × List DispatchEvent :=
  if name = "search_npm" then h.searchNpm args
  else if name = "fetch_package_content" then h.fetchContent args
  else if name = "get_package_versions" then h.getVersions args
  else if name = "get_package_details" then h.getDetails args
  else if name = "check_updates" then h.checkUpdatesTool args
  else if name = "upgrade_packages" then h.upgradePackagesTool args
  else if name = "filter_updates" then h.filterUpdatesTool args
  else if name = "resolve_conflicts" then h.resolveConflictsTool args
  else if name = "set_version_constraints" then h.setVersionConstraintsTool args
  else if name = "run_doctor" then h.runDoctorTool args
  else (some (0, .error (.mcp .methodNotFound ("Unknown tool: " ++ name))), [])

/-- One full CallTool invocation (src/index.ts lines 590-725): select the
branch, race it against the invocation-level timeout, and normalize the
raced outcome at the catch boundary; the branch's effects are reported
alongside. -/
def callTool (h : ToolHandlers) (name : String) (args : JsValue) :
    DispatchOutcome × List DispatchEvent :=
  let s := dispatchSwitch h name args
  (catchBoundary (raceWithTimeout s.1).2, s.2)

/-- A handler settlement that arrives after the invocation-level deadline,
or never arrives at all. -/
def settlesLate (s : Settlement) : Prop :=
  ∀ t r, s = some (t, r) → toolTimeout < t

/-- The Zod-parsed CheckUpdatesSchema arguments (src/index.ts lines 60-69).
Unknown keys are stripped by Zod, so only these fields reach the handler. -/
structure CheckUpdatesArgs where
  packagePath : Option String := none
  filter : Option (List String) := none
  reject : Option (List String) := none
  target : Option String := none
  peer : Option Bool := none
  minimal : Option Bool := none
  packageManager : Option String := none

/-- The Zod-parsed UpgradePackagesSchema arguments (src/index.ts lines
71-78). -/
structure UpgradePackagesArgs where
  packagePath : Option String := none
  upgradeType : Option String := none
  peer : Option Bool := none
  minimal : Option Bool := none
  packageManager : Option String := none

/-- The Zod-parsed FilterUpdatesSchema arguments (src/index.ts lines
80-87); filter is required. -/
structure FilterUpdatesArgs where
  packagePath : Option String := none
  filter : List String
  upgrade : Option Bool := none
  minimal : Option Bool := none
  packageManager : Option String := none

/-- The Zod-parsed ResolveConflictsSchema arguments (src/index.ts lines
89-95). The schema declares no peer field, so the public interface cannot
carry one. -/
structure ResolveConflictsArgs where
  packagePath : Option String := none
  upgrade : Option Bool := none
  minimal : Option Bool := none
  packageManager : Option String := none

/-- The Zod-parsed SetVersionConstraintsSchema arguments (src/index.ts
lines 97-105); target is required. -/
structure SetVersionConstraintsArgs where
  packagePath : Option String := none
  target : String
  removeRange : Option Bool := none
  upgrade : Option Bool := none
  minimal : Option Bool := none
  packageManager : Option String := none

/-- The Zod-parsed RunDoctorSchema arguments (src/index.ts lines 107-113). -/
structure RunDoctorArgs where
  packagePath : Option String := none
  doctorInstall : Option String := none
  doctorTest : Option String := none
  packageManager : Option String := none

/-- The options record handed to the external update-resolution routine by
the handler methods, before runNcu adds its fixed fields: a field is none
when the handler leaves it unset. -/
structure NcuOptions where
  packageFile : String
  filter : Option (List String) := none
  reject : Option (List String) := none
  target : Option String := none
  peer : Option Bool := none
  minimal : Option Bool := none
  packageManager : Option String := none
  upgrade : Option Bool := none
  removeRange : Option Bool := none
  doctor : Option Bool := none
  doctorInstall : Option String := none
  doctorTest : Option String := none

/-- The full options record after runNcu's spread (src/index.ts lines
376-384) adds the fixed output-control fields. -/
structure NcuRunOptions extends NcuOptions where
  jsonUpgraded : Bool := true
  silent : Bool := true
  loglevel : String := "silent"
  json : Bool := true

/-- runNcu's option spread: the base options plus the fixed fields. -/
def mkRunOptions (base : NcuOptions) : NcuRunOptions := { toNcuOptions := base }

/-- Conditional flag assignment of the form if (options.x) opts.x = true:
set only when the caller passed true, since false is falsy. -/
def setIfTrue (b : Option Bool) : Option Bool :=
  if b = some true then some true else none

/-- Conditional string assignment of the form if (options.x) opts.x =
options.x: set only when the caller passed a non-empty string. -/
def truthyStrOpt : Option String → Option String
  | some s => if s = "" then none else some s
  | none => none

/-- Conditional array assignment: arrays are always truthy, so any passed
list (even empty) is set. -/
def truthyListOpt : Option (List String) → Option (List String)
  | some l => some l
  | none => none

/-- The default manifest name substituted by packagePath || package.json
(src/index.ts line 368); the empty string is falsy. -/
def effectiveManifestPath (packagePath : Option String) : String :=
  match packagePath with
  | some p => if p = "" then ("package.json") else p
  | none => ("package.json")

/-- NpmCheckUpdatesHandler.resolvePackagePath (src/index.ts lines 367-373):
resolve against the working directory (resolveAbs models path.resolve with
the current working directory fixed) and throw when the file is absent.
The filesystem is modelled as the list of existing paths. -/
def resolvePackagePath (fs : List String) (resolveAbs : String → String)
    (packagePath : Option String) : Except String String :=
  let resolvedPath := resolveAbs (effectiveManifestPath packagePath)
  if fs.contains resolvedPath then .ok resolvedPath
  else .error ("Package file not found: " ++ resolvedPath)

/-- The mapping returned by the external update-resolution routine: package
name to recommended version string or boolean outcome. -/
abbrev NcuResult := List (String × JsValue)

/-- The signature of the external ncu.run routine as consumed by runNcu:
it may fail with an error message. -/
abbrev NcuRunFn := NcuRunOptions → Except String NcuResult

/-- NpmCheckUpdatesHandler.runNcu (src/index.ts lines 375-395): add the
fixed option fields, call the external routine, and wrap any failure. -/
def runNcuModel (ncuRun : NcuRunFn) (base : NcuOptions) : Except String NcuResult :=
  match ncuRun (mkRunOptions base) with
  | .ok r => .ok r
  | .error e => .error ("NCU execution failed: " ++ e)

/-- Option building of NpmCheckUpdatesHandler.checkUpdates (src/index.ts
lines 400-406). -/
def buildCheckUpdatesOptions (packageFile : String) (o : CheckUpdatesArgs) : NcuOptions :=
  { packageFile := packageFile
    filter := truthyListOpt o.filter
    reject := truthyListOpt o.reject
    target := truthyStrOpt o.target
    peer := setIfTrue o.peer
    minimal := setIfTrue o.minimal
    packageManager := truthyStrOpt o.packageManager }

/-- Option building of NpmCheckUpdatesHandler.upgradePackages (src/index.ts
lines 418-423): upgrade is always set. -/
def buildUpgradePackagesOptions (packageFile : String) (o : UpgradePackagesArgs) : NcuOptions :=
  { packageFile := packageFile
    upgrade := some true
    target := truthyStrOpt o.upgradeType
    peer := setIfTrue o.peer
    minimal := setIfTrue o.minimal
    packageManager := truthyStrOpt o.packageManager }

/-- Option building of NpmCheckUpdatesHandler.filterUpdates (src/index.ts
lines 435-438): the required filter is always set. -/
def buildFilterUpdatesOptions (packageFile : String) (o : FilterUpdatesArgs) : NcuOptions :=
  { packageFile := packageFile
    filter := some o.filter
    upgrade := setIfTrue o.upgrade
    minimal := setIfTrue o.minimal
    packageManager := truthyStrOpt o.packageManager }

/-- Option building of NpmCheckUpdatesHandler.resolveConflicts
(src/index.ts lines 452-455): peer is set to true in the base record
unconditionally, and no later assignment touches it. -/
def buildResolveConflictsOptions (packageFile : String) (o : ResolveConflictsArgs) : NcuOptions :=
  { packageFile := packageFile
    peer := some true
    upgrade := setIfTrue o.upgrade
    minimal := setIfTrue o.minimal
    packageManager := truthyStrOpt o.packageManager }

/-- Option building of NpmCheckUpdatesHandler.setVersionConstraints
(src/index.ts lines 469-473): the required target is always set. -/
def buildSetVersionConstraintsOptions (packageFile : String)
    (o : SetVersionConstraintsArgs) : NcuOptions :=
  { packageFile := packageFile
    target := some o.target
    removeRange := setIfTrue o.removeRange
    upgrade := setIfTrue o.upgrade
    minimal := setIfTrue o.minimal
    packageManager := truthyStrOpt o.packageManager }

/-- Option building of NpmCheckUpdatesHandler.runDoctor (src/index.ts lines
487-490): doctor and upgrade are always set. -/
def buildRunDoctorOptions (packageFile : String) (o : RunDoctorArgs) : NcuOptions :=
  { packageFile := packageFile
    doctor := some true
    upgrade := some true
    doctorInstall := truthyStrOpt o.doctorInstall
    doctorTest := truthyStrOpt o.doctorTest
    packageManager := truthyStrOpt o.packageManager }

/-- NpmCheckUpdatesHandler.checkUpdates (src/index.ts lines 398-414),
instrumented with the number of times the external routine is invoked. -/
def checkUpdatesRun (fs : List String) (resolveAbs : String → String) (ncuRun : NcuRunFn)
    (options : CheckUpdatesArgs) : Except String (NcuResult × String) × Nat :=
  match resolvePackagePath fs resolveAbs options.packagePath with
  | .error e => (.error e, 0)
  | .ok packageFile =>
    match runNcuModel ncuRun (buildCheckUpdatesOptions packageFile options) with
    | .error e => (.error e, 1)
    | .ok result =>
      (.ok (result,
        if 0 < result.length then
          "Found " ++ toString result.length ++ " outdated dependencies."
        else "All dependencies are up-to-date."), 1)

/-- NpmCheckUpdatesHandler.upgradePackages (src/index.ts lines 416-431),
instrumented with the number of external invocations. -/
def upgradePackagesRun (fs : List String) (resolveAbs : String → String) (ncuRun : NcuRunFn)
    (options : UpgradePackagesArgs) : Except String (NcuResult × String) × Nat :=
  match resolvePackagePath fs resolveAbs options.packagePath with
  | .error e => (.error e, 0)
  | .ok packageFile =>
    match runNcuModel ncuRun (buildUpgradePackagesOptions packageFile options) with
    | .error e => (.error e, 1)
    | .ok result =>
      (.ok (result,
        if 0 < result.length then
          "Upgraded " ++ toString result.length ++ " dependencies."
        else "No dependencies needed upgrading or were upgraded."), 1)

/-- NpmCheckUpdatesHandler.filterUpdates (src/index.ts lines 433-448),
instrumented with the number of external invocations. -/
def filterUpdatesRun (fs : List String) (resolveAbs : String → String) (ncuRun : NcuRunFn)
    (options : FilterUpdatesArgs) : Except String (NcuResult × String) × Nat :=
  match resolvePackagePath fs resolveAbs options.packagePath with
  | .error e => (.error e, 0)
  | .ok packageFile =>
    match runNcuModel ncuRun (buildFilterUpdatesOptions packageFile options) with
    | .error e => (.error e, 1)
    | .ok result =>
      (.ok (result,
        if 0 < result.length then
          "Found " ++ toString result.length ++ " filtered dependencies "
            ++ (if options.upgrade = some true then "and upgraded them." else "with available updates.")
        else "No updates found for the filtered dependencies."), 1)

/-- NpmCheckUpdatesHandler.resolveConflicts (src/index.ts lines 450-465),
instrumented with the number of external invocations. -/
def resolveConflictsRun (fs : List String) (resolveAbs : String → String) (ncuRun : NcuRunFn)
    (options : ResolveConflictsArgs) : Except String (NcuResult × String) × Nat :=
  match resolvePackagePath fs resolveAbs options.packagePath with
  | .error e => (.error e, 0)
  | .ok packageFile =>
    match runNcuModel ncuRun (buildResolveConflictsOptions packageFile options) with
    | .error e => (.error e, 1)
    | .ok result =>
      (.ok (result,
        if 0 < result.length then
          "Attempted to resolve conflicts for " ++ toString result.length
            ++ " dependencies using the peer strategy "
            ++ (if options.upgrade = some true then "and applied changes." else ".")
        else "No conflicts found or resolved based on peer strategy."), 1)

/-- NpmCheckUpdatesHandler.setVersionConstraints (src/index.ts lines
467-483), instrumented with the number of external invocations. -/
def setVersionConstraintsRun (fs : List String) (resolveAbs : String → String) (ncuRun : NcuRunFn)
    (options : SetVersionConstraintsArgs) : Except String (NcuResult × String) × Nat :=
  match resolvePackagePath fs resolveAbs options.packagePath with
  | .error e => (.error e, 0)
  | .ok packageFile =>
    match runNcuModel ncuRun (buildSetVersionConstraintsOptions packageFile options) with
    | .error e => (.error e, 1)
    | .ok result =>
      (.ok (result,
        if 0 < result.length then
          "Applied version constraints to " ++ toString result.length ++ " dependencies "
            ++ (if options.upgrade = some true then "and updated package.json." else " (dry run).")
        else "No dependencies required changes based on the version constraints."), 1)

/-- NpmCheckUpdatesHandler.runDoctor (src/index.ts lines 485-510),
instrumented with the number of external invocations. -/
def runDoctorRun (fs : List String) (resolveAbs : String → String) (ncuRun : NcuRunFn)
    (options : RunDoctorArgs) : Except String (NcuResult × String) × Nat :=
  match resolvePackagePath fs resolveAbs options.packagePath with
  | .error e => (.error e, 0)
  | .ok packageFile =>
    match runNcuModel ncuRun (buildRunDoctorOptions packageFile options) with
    | .error e => (.error e, 1)
    | .ok result =>
      if result.length = 0 then
        (.ok ([],
          "Doctor mode completed. No breaking upgrades found or all dependencies are up-to-date."), 1)
      else
        (.ok (result,
          "Doctor mode completed: "
            ++ toString (result.filter (fun kv => kv.2 == JsValue.bool true)).length
            ++ " working upgrades applied, "
            ++ toString (result.filter (fun kv => !(kv.2 == JsValue.bool true))).length
            ++ " breaking upgrades identified."), 1)

/-- The six update tools, each with its parsed argument record. -/
inductive NcuToolCall where
  | check (o : CheckUpdatesArgs)
  | upgrade (o : UpgradePackagesArgs)
  | filterU (o : FilterUpdatesArgs)
  | resolve (o : ResolveConflictsArgs)
  | setConstraints (o : SetVersionConstraintsArgs)
  | doctor (o : RunDoctorArgs)

/-- The packagePath argument of an update-tool call. -/
def NcuToolCall.path : NcuToolCall → Option String
  | .check o => o.packagePath
  | .upgrade o => o.packagePath
  | .filterU o => o.packagePath
  | .resolve o => o.packagePath
  | .setConstraints o => o.packagePath
  | .doctor o => o.packagePath

/-- Run any of the six update-tool handlers. -/
def runNcuTool (fs : List String) (resolveAbs : String → String) (ncuRun : NcuRunFn) :
    NcuToolCall → Except String (NcuResult × String) × Nat
  | .check o => checkUpdatesRun fs resolveAbs ncuRun o
  | .upgrade o => upgradePackagesRun fs resolveAbs ncuRun o
  | .filterU o => filterUpdatesRun fs resolveAbs ncuRun o
  | .resolve o => resolveConflictsRun fs resolveAbs ncuRun o
  | .setConstraints o => setVersionConstraintsRun fs resolveAbs ncuRun o
  | .doctor o => runDoctorRun fs resolveAbs ncuRun o

/-- State of the RateLimiter (src/index.ts lines 134-162) together with the
event-loop context it manipulates: the configured minimum spacing, the FIFO
waiter queue, the time of the last dispatch, the pending setTimeout fire
times, and the log of (waiter, resolution time) pairs in resolution order.
Waiters are identified by the order number of their acquire call. -/
structure RLState where
  rateLimit : Nat
  queue : List Nat
  lastRequestTime : Nat
  timers : List Nat
  log : List (Nat × Nat)
deriving DecidableEq

/-- RateLimiter.processQueue (src/index.ts lines 150-161) executed at
wall-clock time now: dispatch the head waiter when the spacing has elapsed,
recording the dispatch and updating lastRequestTime; otherwise schedule a
setTimeout that fires once the spacing has elapsed, at lastRequestTime +
rateLimit. -/
def processQueue (now : Nat) (s : RLState) : RLState :=
  match s.queue with
  | [] => s
  | next :: rest =>
    if s.rateLimit ≤ now - s.lastRequestTime then
      { s with queue := rest, lastRequestTime := now, log := s.log ++ [(next, now)] }
    else
      { s with timers := s.timers ++ [s.lastRequestTime + s.rateLimit] }

/-- RateLimiter.acquire (src/index.ts lines 143-148) called at time now by
waiter w: push the resolver onto the queue and run processQueue
synchronously. -/
def acquire (now : Nat) (w : Nat) (s : RLState) : RLState :=
  processQueue now { s with queue := s.queue ++ [w] }

/-- The RateLimiter constructor (src/index.ts lines 139-141): minimum
spacing 1000 / requestsPerSecond, empty queue, lastRequestTime 0. -/
def rateLimiterNew (requestsPerSecond : Nat) : RLState :=
  { rateLimit := 1000 / requestsPerSecond
    queue := []
    lastRequestTime := 0
    timers := []
    log := [] }

/-- Remove the earliest pending timer (ties resolve to the earliest
registered, as in the event loop): the minimum of the list, first
occurrence. -/
def popMin : List Nat → Option (Nat × List Nat)
  | [] => none
  | x :: xs =>
    match popMin xs with
    | none => some (x, [])
    | some (m, rest) => if x ≤ m then some (x, xs) else some (m, x :: rest)

/-- One event-loop step: fire the earliest pending setTimeout callback,
which runs processQueue at its scheduled time. -/
def rlStep (s : RLState) : RLState :=
  match popMin s.timers with
  | none => s
  | some (t, rest) => processQueue t { s with timers := rest }

/-- Run the event loop for at most fuel timer firings (timers fire exactly
at their scheduled times; the loop is idle once no timer is pending). -/
def rlRun : Nat → RLState → RLState
  | 0, s => s
  | fuel + 1, s => if s.timers.isEmpty then s else rlRun fuel (rlStep s)

/-- The scenario of the spec: waiters 1..N all call acquire() at time 0 on
a fresh RateLimiter built with the default budget of 2 requests per
second (minimum spacing 500 ms). -/
def acquireAll (N : Nat) : RLState :=
  (List.range' 1 N).foldl (fun s w => acquire 0 w s) (rateLimiterNew 2)

/-- Check that consecutive entries of a time list are at least r apart. -/
def chkSpaced (r : Nat) : List Nat → Bool
  | [] => true
  | [_] => true
  | t :: u :: rest => (decide (t + r ≤ u) && chkSpaced r (u :: rest))

/-- Check that each time is at least r later than the running base,
advancing the base by r at every entry. -/
def chkProg (r : Nat) : Nat → List Nat → Bool
  | _, [] => true
  | base, t :: rest => (decide (base + r ≤ t) && chkProg r (base + r) rest)

/-- Check that the k-th entry (1-indexed) of a time list occurs no earlier
than (k-1) times r after the first entry. -/
def chkFromFirst (r : Nat) : List Nat → Bool
  | [] => true
  | t0 :: rest => chkProg r t0 rest

/-- Object test used to state well-formedness of upstream payloads. -/
def JsValue.isObj : JsValue → Bool
  | .obj _ => true
  | _ => false

/-- The key list of an object value (empty for non-objects). -/
def jsObjKeys : JsValue → List String
  | .obj fields => fields.map Prod.fst
  | _ => []

/-- Total member access companion of jsGet: the field value on objects,
undefined otherwise (including the nullish bases on which jsGet throws). -/
def jsIndex (v : JsValue) (key : String) : JsValue :=
  match v with
  | .obj fields => (lookupField fields key).getD .undefined
  | _ => .undefined

/-- Total optional-chain companion of jsGetOpt, which never throws. -/
def jsIndexOpt (v : JsValue) (key : String) : JsValue :=
  if jsNullish v then .undefined else jsIndex v key

/-- Total companion of Object.entries on non-nullish values. -/
def jsEntriesTotal : JsValue → List (String × JsValue)
  | .obj fields => fields
  | .str s => s.data.enum.map (fun p => (toString p.1, JsValue.str (String.mk [p.2])))
  | _ => []

/-- An element of data.objects is well-formed for the search mapping when
it carries a package object; all other fields are optional. -/
def searchObjectWellFormed : JsValue → Bool
  | .obj fields =>
    match lookupField fields ("package") with
    | some (.obj _) => true
    | _ => false
  | _ => false

/-- The value produced by the search mapping body on a well-formed element:
the same field reads as shapeSearchObject, through the total accessors. -/
def shapeSearchObjectTotal (o : JsValue) : JsValue :=
  let pkg := jsIndex o ("package")
  let name := jsIndex pkg ("name")
  let version := jsIndex pkg ("version")
  let description := jsIndex pkg ("description")
  let author := jsIndexOpt (jsIndex pkg ("author")) ("name")
  let links := jsIndex pkg ("links")
  let homepage := jsIndexOpt links ("homepage")
  let repository := jsIndexOpt links ("repository")
  let keywordsRaw := jsIndex pkg ("keywords")
  let keywords := if jsTruthy keywordsRaw then keywordsRaw else JsValue.arr []
  let maintenance := jsIndexOpt (jsIndexOpt (jsIndex o ("score")) ("detail")) ("maintenance")
  let weeklyDownloads := if jsNullish maintenance then JsValue.undefined
    else JsValue.str (jsToString maintenance)
  let lastPublish := JsValue.str (jsDateLocale (jsIndex pkg ("date")))
  JsValue.obj [(("name"), name), (("version"), version), (("description"), description),
    (("author"), author), (("homepage"), homepage), (("repository"), repository),
    (("keywords"), keywords), (("weeklyDownloads"), weeklyDownloads),
    (("lastPublish"), lastPublish)]

/-- The value produced by the per-version trimming on an object input: the
seven retained fields, through the total accessors. -/
def shapeVersionDetailsTotal (d : JsValue) : JsValue :=
  JsValue.obj [(("name"), jsIndex d ("name")), (("version"), jsIndex d ("version")),
    (("description"), jsIndex d ("description")), (("main"), jsIndex d ("main")),
    (("dependencies"), jsIndex d ("dependencies")),
    (("devDependencies"), jsIndex d ("devDependencies")),
    (("peerDependencies"), jsIndex d ("peerDependencies"))]

/-- The value produced by the time-map trimming, which never throws. -/
def shapeTimeTotal (timeVal : JsValue) : JsValue :=
  if jsTruthy timeVal then
    JsValue.obj ([(("created"), jsIndex timeVal ("created")),
      (("modified"), jsIndex timeVal ("modified"))]
      ++ jsSliceNeg 10
        ((jsEntriesTotal timeVal).filter (fun kv => !(kv.1 == "created" || kv.1 == "modified"))))
  else JsValue.undefined

/-- The seven fields retained for each trimmed version entry. -/
def retainedVersionFields : List String :=
  [("name"), ("version"), ("description"), ("main"), ("dependencies"),
   ("devDependencies"), ("peerDependencies")]

/-- A handler assignment in which no branch ever settles and no branch has
effects; used to exercise the dispatcher theorems on concrete inputs. -/
def silentHandlers : ToolHandlers :=
  { searchNpm := fun _ => (none, [])
    fetchContent := fun _ => (none, [])
    getVersions := fun _ => (none, [])
    getDetails := fun _ => (none, [])
    checkUpdatesTool := fun _ => (none, [])
    upgradePackagesTool := fun _ => (none, [])
    filterUpdatesTool := fun _ => (none, [])
    resolveConflictsTool := fun _ => (none, [])
    setVersionConstraintsTool := fun _ => (none, [])
    runDoctorTool := fun _ => (none, []) }

/-- The intermediate event-loop configurations reached from the burst
scenario: with r the spacing and waiters 1..N, after j dispatches the
queue holds waiters j+1..N, the last dispatch happened at r * j, the log
records waiter i resolved at r * i for i ≤ j, and the pending timers are a
timers scheduled at r * j (about to be rescheduled) and b timers at
r * j + r (one of which will perform the next dispatch). -/
def rlConfig (r N j a b : Nat) : RLState :=
  { rateLimit := r
    queue := List.range' (j + 1) (N - j)
    lastRequestTime := r * j
    timers := List.replicate a (r * j) ++ List.replicate b (r * j + r)
    log := (List.range' 1 j).map (fun i => (i, r * i)) }

theorem except_bind_ok {α β ε : Type} (a : α) (f : α → Except ε β) :
    (Except.ok a : Except ε α) >>= f = f a := rfl

theorem except_bind_error {α β ε : Type} (e : ε) (f : α → Except ε β) :
    (Except.error e : Except ε α) >>= f = Except.error e := rfl

theorem jsGet_obj (fields : List (String × JsValue)) (key : String) :
    jsGet (JsValue.obj fields) key = .ok (jsIndex (JsValue.obj fields) key) := rfl

theorem jsGetOpt_eq_index (v : JsValue) (key : String) :
    jsGetOpt v key = .ok (jsIndexOpt v key) := by
  cases v <;> rfl

theorem jsTruthy_not_nullish (v : JsValue) (h : jsTruthy v = true) : jsNullish v = false := by
  cases v <;> simp_all [jsTruthy, jsNullish]

theorem jsGet_of_not_nullish (v : JsValue) (key : String) (h : jsNullish v = false) :
    jsGet v key = .ok (jsIndex v key) := by
  cases v <;> simp_all [jsNullish, jsGet, jsIndex]

theorem jsObjectEntries_of_not_nullish (v : JsValue) (h : jsNullish v = false) :
    jsObjectEntries v = .ok (jsEntriesTotal v) := by
  cases v <;> simp_all [jsNullish, jsObjectEntries, jsEntriesTotal]

/-- C4: for every version list of length V, the formatted output shows
exactly min(V, 15) version strings (the first fifteen of the list), and it
carries the suffix naming the remaining V - 15 versions exactly when V
exceeds fifteen; an empty list yields the no-versions message, hence zero
version strings and no suffix. -/
theorem formatVersions_min_fifteen_and_suffix (packageName : String) (versions : List String) :
    (versions ≠ [] → formatVersions packageName versions =
      "📦 " ++ packageName ++ "\nAvailable versions (newest first):\n"
        ++ String.intercalate (", ") (versions.take 15)
        ++ (if 15 < versions.length then
              "\n...and " ++ toString (versions.length - 15) ++ " more versions"
            else "")) ∧
    (versions.take 15).length = min versions.length 15 ∧
    (versions = [] → formatVersions packageName versions =
      "No versions found for " ++ packageName ++ ".") := by
  refine ⟨fun h => ?_, ?_, fun h => ?_⟩
  · cases versions with
    | nil => exact absurd rfl h
    | cons x xs => rfl
  · rw [List.length_take]
    omega
  · subst h
    rfl

/-- C4 witness: a 17-entry version list shows the first fifteen strings
and the suffix counting the other two. -/
theorem formatVersions_min_fifteen_and_suffix_witness :
    formatVersions ("p")
      [("1"), ("2"), ("3"), ("4"), ("5"), ("6"), ("7"), ("8"), ("9"), ("10"), ("11"), ("12"),
       ("13"), ("14"), ("15"), ("16"), ("17")] =
      "📦 p\nAvailable versions (newest first):\n1, 2, 3, 4, 5, 6, 7, 8, 9, 10, 11, 12, 13, 14, 15\n...and 2 more versions" := by
  have h := formatVersions_min_fifteen_and_suffix ("p")
    [("1"), ("2"), ("3"), ("4"), ("5"), ("6"), ("7"), ("8"), ("9"), ("10"), ("11"), ("12"),
     ("13"), ("14"), ("15"), ("16"), ("17")]
  rw [h.1 (by decide)]
  decide

/-- C6: the README body of the assembled page text is hard-capped at 4000
characters, the truncation marker is appended exactly when the body exceeds
4000 characters, the rendered body never exceeds the fixed constant 4030
characters regardless of the upstream page size, and (for nonempty
extractions) the output concatenates package name, version, description and
the rendered body. -/
theorem buildPackageContent_caps_readme (packageName packageVersion description readme : String) :
    (4000 < readme.length →
      renderReadme readme = jsSubstring readme 4000 ++ readmeMarker ∧
      (renderReadme readme).length = 4030) ∧
    (readme.length ≤ 4000 → renderReadme readme = readme) ∧
    (renderReadme readme).length ≤ 4030 ∧
    (packageName ≠ "" → packageVersion ≠ "" → description ≠ "" → readme ≠ "" →
      buildPackageContent packageName packageVersion description readme =
        String.join [("Package: "), packageName, ("\n"), ("Version: "), packageVersion, ("\n"),
          ("Description: "), description, ("\n\n"), ("README:\n"), renderReadme readme]) := by
  have hsub : (jsSubstring readme 4000).length = min 4000 readme.length := by
    rw [jsSubstring, String.length_mk, List.length_take, String.length]
  have hmark : readmeMarker.length = 30 := rfl
  refine ⟨fun h => ⟨by rw [renderReadme, if_pos h], ?_⟩, fun h => ?_, ?_, fun h1 h2 h3 h4 => ?_⟩
  · rw [renderReadme, if_pos h, String.length_append, hsub, hmark]
    omega
  · rw [renderReadme, if_neg (by omega)]
  · by_cases h : 4000 < readme.length
    · rw [renderReadme, if_pos h, String.length_append, hsub, hmark]
      omega
    · rw [renderReadme, if_neg h]
      omega
  · rw [buildPackageContent]
    simp only [bne_iff_ne, ne_eq, h1, h2, h3, h4, not_false_eq_true, if_true]
    rw [if_neg]
    · rfl
    · intro heq
      have hlen := congrArg String.length heq
      simp only [String.length_append, String.length_empty] at hlen
      have h9 : ("Package: " : String).length = 9 := rfl
      omega

/-- C6 witness: a page with all four texts present and a 4001-character
README is assembled with the capped body and the truncation marker. -/
theorem buildPackageContent_caps_readme_witness :
    buildPackageContent ("lodash") ("4.17.21") ("A utility library")
        (String.mk (List.replicate 4001 ('a'))) =
      String.join [("Package: "), ("lodash"), ("\n"), ("Version: "), ("4.17.21"), ("\n"),
        ("Description: "), ("A utility library"), ("\n\n"), ("README:\n"),
        String.mk (List.replicate 4000 ('a')) ++ readmeMarker] := by
  have h := buildPackageContent_caps_readme ("lodash") ("4.17.21") ("A utility library")
    (String.mk (List.replicate 4001 ('a')))
  have hlen : (String.mk (List.replicate 4001 ('a'))).length = 4001 := by
    rw [String.length_mk, List.length_replicate]
  have hbody := h.1 (by omega)
  have hne : String.mk (List.replicate 4001 ('a')) ≠ "" := by
    intro heq
    have h0 := congrArg String.length heq
    rw [hlen, String.length_empty] at h0
    exact absurd h0 (by omega)
  rw [h.2.2.2 (by decide) (by decide) (by decide) hne]
  rw [hbody.1]
  have hxs : jsSubstring (String.mk (List.replicate 4001 ('a'))) 4000 =
      String.mk (List.replicate 4000 ('a')) := by
    rw [jsSubstring]
    norm_num [List.take_replicate]
  rw [hxs]

/-- C7: the search formatter reports the upstream total and, separately,
the number of returned packages, followed by one formatted block per
returned package; in particular a response with total 42 and three
returned packages reports Found 42 packages (showing 3). -/
theorem formatSearchResults_total_and_shown (results : NpmSearchResult) :
    (results.packages ≠ [] → formatSearchResults results =
      "Found " ++ toString results.totalResults ++ " packages (showing "
        ++ toString results.packages.length ++ "):\n\n"
        ++ String.join (results.packages.map formatPackageEntry)) ∧
    (results.totalResults = 42 → results.packages.length = 3 →
      formatSearchResults results =
        "Found 42 packages (showing 3):\n\n"
          ++ String.join (results.packages.map formatPackageEntry)) := by
  obtain ⟨ps, total⟩ := results
  constructor
  · intro h
    cases ps with
    | nil => exact absurd rfl h
    | cons x xs => rfl
  · intro ht hl
    have hne : ps ≠ [] := by
      intro heq
      rw [heq] at hl
      simp at hl
    have h1 : formatSearchResults ⟨ps, total⟩ =
        "Found " ++ toString total ++ " packages (showing "
          ++ toString ps.length ++ "):\n\n" ++ String.join (ps.map formatPackageEntry) := by
      cases ps with
      | nil => exact absurd rfl hne
      | cons x xs => rfl
    rw [h1]
    simp only at ht hl
    rw [ht, hl]
    congr 1

/-- C7 witness: three concrete packages with upstream total 42. -/
theorem formatSearchResults_total_and_shown_witness :
    formatSearchResults
        { packages :=
            [{ name := ("a"), version := ("1"), description := ("da") },
             { name := ("b"), version := ("2"), description := ("") },
             { name := ("c"), version := ("3"), description := ("dc"), author := some ("ann") }],
          totalResults := 42 } =
      "Found 42 packages (showing 3):\n\n"
        ++ String.join
          ([{ name := ("a"), version := ("1"), description := ("da") },
            { name := ("b"), version := ("2"), description := ("") },
            { name := ("c"), version := ("3"), description := ("dc"), author := some ("ann") }].map
            formatPackageEntry) := by
  exact (formatSearchResults_total_and_shown _).2 rfl rfl

/-- C10: every invocation of the resolve_conflicts handler hands the
external update-resolution routine an options record with peer set to
true, whatever the caller-supplied arguments were; the argument schema
carries no peer field, so the flag cannot be disabled from outside. -/
theorem resolveConflicts_always_peer (packageFile : String) (o : ResolveConflictsArgs) :
    (buildResolveConflictsOptions packageFile o).peer = some true ∧
    (mkRunOptions (buildResolveConflictsOptions packageFile o)).peer = some true :=
  ⟨rfl, rfl⟩

/-- C2: whenever the selected handler branch has not settled within the
30-second invocation-level timeout (or never settles), the dispatcher
surfaces the isError envelope whose text states the timeout; the raced
settlement is exactly the single timeout failure produced at the deadline,
so the handler's own eventual settlement is never surfaced and exactly one
outcome reaches the caller. -/
theorem callTool_timeout_envelope (h : ToolHandlers) (name : String) (args : JsValue)
    (hlate : settlesLate (dispatchSwitch h name args).1) :
    (callTool h name args).1 =
      .envelope { content := [(("text"), timeoutMessage)], isError := true } ∧
    timeoutMessage = "Tool execution timed out after 30s" ∧
    raceWithTimeout (dispatchSwitch h name args).1 =
      (toolTimeout, .error (.err timeoutMessage)) := by
  have hrace : raceWithTimeout (dispatchSwitch h name args).1 =
      (toolTimeout, .error (.err timeoutMessage)) := by
    cases hs : (dispatchSwitch h name args).1 with
    | none => rfl
    | some p =>
      obtain ⟨t, r⟩ := p
      have ht := hlate t r hs
      rw [raceWithTimeout, if_neg (by omega)]
  refine ⟨?_, rfl, hrace⟩
  rw [callTool]
  simp only [hrace]
  rfl

/-- C2 witness: a never-settling search handler is surfaced as the timeout
envelope. -/
theorem callTool_timeout_envelope_witness :
    (callTool silentHandlers ("search_npm") JsValue.undefined).1 =
      .envelope { content := [(("text"), "Tool execution timed out after 30s")],
                  isError := true } := by
  have h := callTool_timeout_envelope silentHandlers ("search_npm") JsValue.undefined
    (fun t r hh => nomatch hh)
  rw [h.2.1] at h
  exact h.1

/-- C8: an invocation naming an operation outside the declared tool set is
rejected with the protocol-level McpError MethodNotFound naming the tool;
no handler branch runs and no effect (in particular no rate-limiter
acquisition) is emitted, whatever the handler behaviors are. -/
theorem callTool_unknown_tool (h : ToolHandlers) (name : String) (args : JsValue)
    (hmem : name ∉ declaredToolNames) :
    callTool h name args =
      (.protocolError .methodNotFound ("Unknown tool: " ++ name), []) := by
  simp only [declaredToolNames, List.mem_cons, List.mem_singleton, not_or,
    List.not_mem_nil, or_false] at hmem
  obtain ⟨h1, h2, h3, h4, h5, h6, h7, h8, h9, h10⟩ := hmem
  rw [callTool, dispatchSwitch]
  rw [if_neg h1, if_neg h2, if_neg h3, if_neg h4, if_neg h5, if_neg h6, if_neg h7,
    if_neg h8, if_neg h9, if_neg h10]
  rfl

/-- C8 witness: the unknown operation name bogus_tool is rejected before
any handler or gate effect. -/
theorem callTool_unknown_tool_witness :
    callTool silentHandlers ("bogus_tool") JsValue.undefined =
      (.protocolError .methodNotFound ("Unknown tool: bogus_tool"), []) := by
  have h := callTool_unknown_tool silentHandlers ("bogus_tool") JsValue.undefined (by decide)
  rw [h]
  rfl

/-- C9: an update-tool invocation whose resolved manifest path is not on
the filesystem fails with the handler error naming the resolved path, the
external update-resolution routine is never invoked (invocation count 0),
and the dispatcher's catch boundary surfaces that failure as an
isError=true envelope carrying the same message. -/
theorem ncuTool_missing_manifest (fs : List String) (resolveAbs : String → String)
    (ncuRun : NcuRunFn) (call : NcuToolCall)
    (hmiss : fs.contains (resolveAbs (effectiveManifestPath call.path)) = false) :
    runNcuTool fs resolveAbs ncuRun call =
      (.error ("Package file not found: " ++ resolveAbs (effectiveManifestPath call.path)), 0) ∧
    catchBoundary
        (.error (.err ("Package file not found: " ++ resolveAbs (effectiveManifestPath call.path)))) =
      .envelope
        { content :=
            [(("text"), "Package file not found: " ++ resolveAbs (effectiveManifestPath call.path))],
          isError := true } := by
  refine ⟨?_, rfl⟩
  cases call <;>
    simp_all [runNcuTool, checkUpdatesRun, upgradePackagesRun, filterUpdatesRun,
      resolveConflictsRun, setVersionConstraintsRun, runDoctorRun, resolvePackagePath,
      NcuToolCall.path]

/-- C9 witness: check_updates on an empty filesystem with the default
manifest path fails naming the resolved path without invoking the external
routine. -/
theorem ncuTool_missing_manifest_witness :
    runNcuTool [] (fun p => "/work/" ++ p) (fun _ => .ok []) (.check {}) =
      (.error ("Package file not found: /work/package.json"), 0) := by
  have h := ncuTool_missing_manifest [] (fun p => "/work/" ++ p) (fun _ => .ok [])
    (.check {}) rfl
  rw [h.1]
  rfl

theorem shapeSearchObject_wf (o : JsValue) (h : searchObjectWellFormed o = true) :
    shapeSearchObject o = .ok (shapeSearchObjectTotal o) := by
  cases o with
  | obj fields =>
    rw [searchObjectWellFormed] at h
    cases hl : lookupField fields ("package") with
    | none => rw [hl] at h; exact absurd h (by simp)
    | some pkg =>
      rw [hl] at h
      cases pkg with
      | obj pfields =>
        simp only [shapeSearchObject, shapeSearchObjectTotal, jsGet_obj, except_bind_ok,
          jsGetOpt_eq_index, jsIndex, hl, Option.getD_some]
        rfl
      | undefined => exact absurd h (by simp)
      | jsNull => exact absurd h (by simp)
      | bool b => exact absurd h (by simp)
      | num n => exact absurd h (by simp)
      | str s => exact absurd h (by simp)
      | arr elems => exact absurd h (by simp)
  | undefined => exact absurd h (by simp [searchObjectWellFormed])
  | jsNull => exact absurd h (by simp [searchObjectWellFormed])
  | bool b => exact absurd h (by simp [searchObjectWellFormed])
  | num n => exact absurd h (by simp [searchObjectWellFormed])
  | str s => exact absurd h (by simp [searchObjectWellFormed])
  | arr elems => exact absurd h (by simp [searchObjectWellFormed])

theorem mapThrow_wf (elems : List JsValue) (h : elems.all searchObjectWellFormed = true) :
    mapThrow shapeSearchObject elems = .ok (elems.map shapeSearchObjectTotal) := by
  induction elems with
  | nil => rfl
  | cons x xs ih =>
    rw [List.all_cons, Bool.and_eq_true] at h
    rw [mapThrow, shapeSearchObject_wf x h.1, ih h.2]
    rfl

theorem shapeVersionDetails_obj (d : JsValue) (h : d.isObj = true) :
    shapeVersionDetails d = .ok (shapeVersionDetailsTotal d) := by
  cases d <;> simp_all [JsValue.isObj]
  rfl

theorem mapThrowPairs_obj (entries : List (String × JsValue))
    (h : entries.all (fun kv => kv.2.isObj) = true) :
    mapThrowPairs shapeVersionDetails entries =
      .ok (entries.map (fun kv => (kv.1, shapeVersionDetailsTotal kv.2))) := by
  induction entries with
  | nil => rfl
  | cons x xs ih =>
    rw [List.all_cons, Bool.and_eq_true] at h
    obtain ⟨k, v⟩ := x
    rw [mapThrowPairs, shapeVersionDetails_obj v h.1, ih h.2]
    rfl

theorem shapeTime_total (v : JsValue) : shapeTime v = .ok (shapeTimeTotal v) := by
  rw [shapeTime, shapeTimeTotal]
  by_cases h : jsTruthy v = true
  · rw [if_pos h, if_pos h]
    have hn := jsTruthy_not_nullish v h
    rw [jsGet_of_not_nullish v ("created") hn, except_bind_ok,
      jsGet_of_not_nullish v ("modified") hn, except_bind_ok,
      jsObjectEntries_of_not_nullish v hn, except_bind_ok]
    rfl
  · rw [if_neg h, if_neg h]
    rfl

/-- C3 counterexample: the claim that malformed upstream data (a response
missing the objects or versions field) degrades to omitted optional fields
is false as stated: a search response without objects makes the shaping
throw a TypeError, and a registry document without versions does the same
in both the version-list extraction and the package-detail trimming; each
method's catch wraps the thrown error's message and the operation fails
instead of degrading. -/
theorem shapers_raise_on_missing_toplevel_fields :
    searchPackages (JsValue.obj [(("total"), JsValue.num 42)]) =
      .error ("Error searching npm packages: Cannot read properties of undefined (reading map)") ∧
    getPackageVersions (JsValue.obj [(("name"), JsValue.str ("left-pad"))]) =
      .error ("Error fetching package versions: Cannot convert undefined or null to object") ∧
    getPackageDetails (JsValue.obj [(("name"), JsValue.str ("left-pad"))]) =
      .error ("Error fetching package details: Cannot convert undefined or null to object") :=
  ⟨rfl, rfl, rfl⟩

/-- C3 amended: the shaping functions are total on well-formed upstream
payloads, and optional fields that are missing inside an entry (author,
links, score detail, keywords) degrade to omitted or undefined output
fields; but a payload missing the top-level objects field (search) or
versions field (version-list extraction and package-detail trimming
alike) makes the shaping throw a TypeError whose message each method's
catch wraps into the operation's error, instead of degrading. -/
theorem shapers_total_on_wellformed_only :
    (∀ (elems : List JsValue) (total : JsValue),
      elems.all searchObjectWellFormed = true →
      searchPackages (JsValue.obj [(("objects"), JsValue.arr elems), (("total"), total)]) =
        .ok (JsValue.obj [(("packages"), JsValue.arr (elems.map shapeSearchObjectTotal)),
          (("totalResults"), total)])) ∧
    (∀ (vs : List (String × JsValue)),
      getPackageVersions (JsValue.obj [(("versions"), JsValue.obj vs)]) =
        .ok ((vs.map Prod.fst).reverse)) ∧
    (∀ (fields es : List (String × JsValue)),
      lookupField fields ("versions") = some (JsValue.obj es) →
      (jsSliceNeg 10 es).all (fun kv => kv.2.isObj) = true →
      ∃ shaped, getPackageDetailsShape (JsValue.obj fields) = .ok shaped) ∧
    (∀ (fields : List (String × JsValue)),
      lookupField fields ("objects") = none →
      searchPackages (JsValue.obj fields) =
        .error ("Error searching npm packages: Cannot read properties of undefined (reading map)")) ∧
    (∀ (fields : List (String × JsValue)),
      lookupField fields ("versions") = none →
      getPackageVersions (JsValue.obj fields) =
        .error ("Error fetching package versions: Cannot convert undefined or null to object")) ∧
    (∀ (fields : List (String × JsValue)),
      lookupField fields ("versions") = none →
      getPackageDetails (JsValue.obj fields) =
        .error ("Error fetching package details: Cannot convert undefined or null to object")) := by
  refine ⟨fun elems total h => ?_, fun vs => rfl, fun fields es hv hobj => ?_,
    fun fields h => ?_, fun fields h => ?_, fun fields h => ?_⟩
  · have hmap := mapThrow_wf elems h
    have h1 : jsIndex (JsValue.obj [(("objects"), JsValue.arr elems), (("total"), total)])
        ("objects") = JsValue.arr elems := rfl
    have h2 : jsIndex (JsValue.obj [(("objects"), JsValue.arr elems), (("total"), total)])
        ("total") = total := rfl
    simp only [searchPackages, searchPackagesShape, jsGet_obj, h1, h2, except_bind_ok,
      jsMapElems, hmap]
    rfl
  · have hv' : jsIndex (JsValue.obj fields) ("versions") = JsValue.obj es := by
      rw [jsIndex, hv]
      rfl
    have hmap := mapThrowPairs_obj (jsSliceNeg 10 es) hobj
    refine ⟨JsValue.obj
      [(("name"), jsIndex (JsValue.obj fields) ("name")),
       (("description"), jsIndex (JsValue.obj fields) ("description")),
       (("dist-tags"), jsIndex (JsValue.obj fields) ("dist-tags")),
       (("maintainers"), jsIndex (JsValue.obj fields) ("maintainers")),
       (("homepage"), jsIndex (JsValue.obj fields) ("homepage")),
       (("repository"), jsIndex (JsValue.obj fields) ("repository")),
       (("license"), jsIndex (JsValue.obj fields) ("license")),
       (("versions"),
        JsValue.obj ((jsSliceNeg 10 es).map (fun kv => (kv.1, shapeVersionDetailsTotal kv.2)))),
       (("time"), shapeTimeTotal (jsIndex (JsValue.obj fields) ("time")))], ?_⟩
    simp only [getPackageDetailsShape, jsGet_obj, except_bind_ok, hv', jsObjectEntries,
      hmap, shapeTime_total]
    rfl
  · have h1 : jsIndex (JsValue.obj fields) ("objects") = JsValue.undefined := by
      rw [jsIndex, h]
      rfl
    simp only [searchPackages, searchPackagesShape, jsGet_obj, h1, except_bind_ok,
      jsMapElems, except_bind_error]
    rfl
  · have h1 : jsIndex (JsValue.obj fields) ("versions") = JsValue.undefined := by
      rw [jsIndex, h]
      rfl
    simp only [getPackageVersions, getPackageVersionsShape, jsGet_obj, h1, except_bind_ok,
      jsObjectKeys, except_bind_error]
    rfl
  · have h1 : jsIndex (JsValue.obj fields) ("versions") = JsValue.undefined := by
      rw [jsIndex, h]
      rfl
    simp only [getPackageDetails, getPackageDetailsShape, jsGet_obj, h1, except_bind_ok,
      jsObjectEntries, except_bind_error]
    rfl

/-- C3 amended witness: a well-formed search response whose single entry
has only a package name shapes successfully, with the missing optional
fields degraded to undefined, empty keywords and the Invalid Date label. -/
theorem shapers_total_on_wellformed_only_witness :
    searchPackages (JsValue.obj [(("objects"), JsValue.arr
        [JsValue.obj [(("package"), JsValue.obj [(("name"), JsValue.str ("lodash"))])]]),
      (("total"), JsValue.num 99)]) =
      .ok (JsValue.obj [(("packages"), JsValue.arr
        [JsValue.obj [(("name"), JsValue.str ("lodash")), (("version"), JsValue.undefined),
          (("description"), JsValue.undefined), (("author"), JsValue.undefined),
          (("homepage"), JsValue.undefined), (("repository"), JsValue.undefined),
          (("keywords"), JsValue.arr []), (("weeklyDownloads"), JsValue.undefined),
          (("lastPublish"), JsValue.str ("Invalid Date"))]]),
        (("totalResults"), JsValue.num 99)]) := by
  have h := shapers_total_on_wellformed_only.1
    [JsValue.obj [(("package"), JsValue.obj [(("name"), JsValue.str ("lodash"))])]]
    (JsValue.num 99) rfl
  rw [h]
  rfl

/-- C5: on a package document whose versions object has at least ten
entries (each entry a version-details object), the shaped details retain
exactly ten version entries, namely the last ten in upstream insertion
order with their keys preserved, each trimmed to exactly the seven
retained fields (name, version, description, main and the three dependency
maps); the shaped time map keeps created, modified and the last ten other
timestamp entries, as expressed by shapeTimeTotal. -/
theorem getPackageDetails_last_ten (fields es : List (String × JsValue))
    (hv : lookupField fields ("versions") = some (JsValue.obj es))
    (hlen : 10 ≤ es.length)
    (hobj : (jsSliceNeg 10 es).all (fun kv => kv.2.isObj) = true) :
    getPackageDetailsShape (JsValue.obj fields) =
      .ok (JsValue.obj
        [(("name"), jsIndex (JsValue.obj fields) ("name")),
         (("description"), jsIndex (JsValue.obj fields) ("description")),
         (("dist-tags"), jsIndex (JsValue.obj fields) ("dist-tags")),
         (("maintainers"), jsIndex (JsValue.obj fields) ("maintainers")),
         (("homepage"), jsIndex (JsValue.obj fields) ("homepage")),
         (("repository"), jsIndex (JsValue.obj fields) ("repository")),
         (("license"), jsIndex (JsValue.obj fields) ("license")),
         (("versions"),
          JsValue.obj ((jsSliceNeg 10 es).map (fun kv => (kv.1, shapeVersionDetailsTotal kv.2)))),
         (("time"), shapeTimeTotal (jsIndex (JsValue.obj fields) ("time")))]) ∧
    jsSliceNeg 10 es = es.drop (es.length - 10) ∧
    (jsSliceNeg 10 es).length = 10 ∧
    ((jsSliceNeg 10 es).map (fun kv => (kv.1, shapeVersionDetailsTotal kv.2))).map Prod.fst =
      (es.drop (es.length - 10)).map Prod.fst ∧
    (∀ kv ∈ jsSliceNeg 10 es, jsObjKeys (shapeVersionDetailsTotal kv.2) = retainedVersionFields) := by
  have hv' : jsIndex (JsValue.obj fields) ("versions") = JsValue.obj es := by
    rw [jsIndex, hv]
    rfl
  have hmap := mapThrowPairs_obj (jsSliceNeg 10 es) hobj
  refine ⟨?_, rfl, ?_, ?_, fun kv _ => rfl⟩
  · simp only [getPackageDetailsShape, jsGet_obj, except_bind_ok, hv', jsObjectEntries,
      hmap, shapeTime_total]
    rfl
  · rw [jsSliceNeg, List.length_drop]
    omega
  · rw [List.map_map]
    rfl

/-- C5 witness: an eleven-version document keeps a well-formed shaped
result whose version list has exactly ten entries. -/
theorem getPackageDetails_last_ten_witness :
    (getPackageDetailsShape (JsValue.obj [(("versions"), JsValue.obj
        [(("0.1.0"), JsValue.obj []), (("0.2.0"), JsValue.obj []), (("0.3.0"), JsValue.obj []),
         (("0.4.0"), JsValue.obj []), (("0.5.0"), JsValue.obj []), (("0.6.0"), JsValue.obj []),
         (("0.7.0"), JsValue.obj []), (("0.8.0"), JsValue.obj []), (("0.9.0"), JsValue.obj []),
         (("1.0.0"), JsValue.obj []), (("1.1.0"), JsValue.obj [])])])).isOk = true ∧
    (jsSliceNeg 10
        [(("0.1.0"), JsValue.obj ([] : List (String × JsValue))),
         (("0.2.0"), JsValue.obj []), (("0.3.0"), JsValue.obj []),
         (("0.4.0"), JsValue.obj []), (("0.5.0"), JsValue.obj []), (("0.6.0"), JsValue.obj []),
         (("0.7.0"), JsValue.obj []), (("0.8.0"), JsValue.obj []), (("0.9.0"), JsValue.obj []),
         (("1.0.0"), JsValue.obj []), (("1.1.0"), JsValue.obj [])]).length = 10 := by
  have h := getPackageDetails_last_ten
    [(("versions"), JsValue.obj
        [(("0.1.0"), JsValue.obj []), (("0.2.0"), JsValue.obj []), (("0.3.0"), JsValue.obj []),
         (("0.4.0"), JsValue.obj []), (("0.5.0"), JsValue.obj []), (("0.6.0"), JsValue.obj []),
         (("0.7.0"), JsValue.obj []), (("0.8.0"), JsValue.obj []), (("0.9.0"), JsValue.obj []),
         (("1.0.0"), JsValue.obj []), (("1.1.0"), JsValue.obj [])])]
    [(("0.1.0"), JsValue.obj []), (("0.2.0"), JsValue.obj []), (("0.3.0"), JsValue.obj []),
     (("0.4.0"), JsValue.obj []), (("0.5.0"), JsValue.obj []), (("0.6.0"), JsValue.obj []),
     (("0.7.0"), JsValue.obj []), (("0.8.0"), JsValue.obj []), (("0.9.0"), JsValue.obj []),
     (("1.0.0"), JsValue.obj []), (("1.1.0"), JsValue.obj [])]
    rfl (by decide) rfl
  refine ⟨?_, h.2.2.1⟩
  rw [h.1]
  rfl

theorem popMin_replicate (b : Nat) (v : Nat) :
    popMin (List.replicate (b + 1) v) = some (v, List.replicate b v) := by
  induction b with
  | zero => rfl
  | succ b ih =>
    rw [List.replicate_succ]
    rw [popMin, ih]
    simp [List.replicate_succ]

theorem popMin_replicate_append (a b t r : Nat) :
    popMin (List.replicate (a + 1) t ++ List.replicate b (t + r)) =
      some (t, List.replicate a t ++ List.replicate b (t + r)) := by
  induction a with
  | zero =>
    cases b with
    | zero => rfl
    | succ b =>
      have h1 : List.replicate (0 + 1) t ++ List.replicate (b + 1) (t + r) =
          t :: List.replicate (b + 1) (t + r) := rfl
      rw [h1, popMin, popMin_replicate]
      simp [Nat.le_add_right]
  | succ a ih =>
    rw [List.replicate_succ, List.cons_append, popMin, ih]
    simp

theorem rlStep_resched (r N j a b : Nat) (hr : 0 < r) (hj : j < N) :
    rlStep (rlConfig r N j (a + 1) b) = rlConfig r N j a (b + 1) := by
  obtain ⟨m, hm⟩ : ∃ m, N - j = m + 1 := ⟨N - j - 1, by omega⟩
  have hpop := popMin_replicate_append a b (r * j) r
  simp only [rlStep, rlConfig, hpop, hm, List.range'_succ, processQueue, Nat.sub_self]
  rw [if_neg (by omega), List.append_assoc, (List.replicate_succ' b (r * j + r)).symm]

theorem rlStep_dispatch (r N j b : Nat) (hr : 0 < r) (hj : j < N) :
    rlStep (rlConfig r N j 0 (b + 1)) = rlConfig r N (j + 1) b 0 := by
  obtain ⟨m, hm⟩ : ∃ m, N - j = m + 1 := ⟨N - j - 1, by omega⟩
  have hm2 : N - (j + 1) = m := by omega
  have hpop : popMin (List.replicate 0 (r * j) ++ List.replicate (b + 1) (r * j + r)) =
      some (r * j + r, List.replicate b (r * j + r)) := by
    rw [List.replicate_zero, List.nil_append, popMin_replicate]
  have hq := List.range'_succ (j + 1) m 1
  simp only [rlStep, rlConfig, hpop, hm, hm2, hq, processQueue]
  rw [Nat.add_sub_cancel_left, if_pos (Nat.le_refl r)]
  have hc : List.range' 1 (j + 1) = List.range' 1 j ++ [1 + j] := by
    have h0 := @List.range'_concat 1 1 j
    simpa using h0
  rw [hc, List.map_append]
  simp [Nat.mul_succ, Nat.add_comm 1 j]

theorem rlRun_config (r N : Nat) (hr : 0 < r) :
    ∀ fuel j a b, j ≤ N → a + b = N - j → a + (N - j) * (N - j) ≤ fuel →
      rlRun fuel (rlConfig r N j a b) = rlConfig r N N 0 0 := by
  intro fuel
  induction fuel with
  | zero =>
    intro j a b hj hab hfuel
    have hk : N - j = 0 := by
      by_contra hne
      have h1 : 1 ≤ N - j := by omega
      have h2 : 1 * 1 ≤ (N - j) * (N - j) := Nat.mul_le_mul h1 h1
      omega
    have hj' : j = N := by omega
    subst hj'
    have ha : a = 0 := by omega
    have hb : b = 0 := by omega
    subst ha
    subst hb
    rfl
  | succ fuel ih =>
    intro j a b hj hab hfuel
    by_cases hNj : N - j = 0
    · have hj' : j = N := by omega
      subst hj'
      have ha : a = 0 := by omega
      have hb : b = 0 := by omega
      subst ha
      subst hb
      rw [rlRun, if_pos (by simp [rlConfig])]
    · have hj2 : j < N := by omega
      cases a with
      | succ a' =>
        rw [rlRun, if_neg (by simp [rlConfig, List.replicate_succ])]
        rw [rlStep_resched r N j a' b hr hj2]
        refine ih j a' (b + 1) hj (by omega) ?_
        have hK : a' + 1 + (N - j) * (N - j) ≤ fuel + 1 := hfuel
        generalize hKdef : (N - j) * (N - j) = K at hK ⊢
        omega
      | zero =>
        cases b with
        | zero => exact absurd hab (by omega)
        | succ b' =>
          rw [rlRun, if_neg (by simp [rlConfig, List.replicate_succ])]
          rw [rlStep_dispatch r N j b' hr hj2]
          refine ih (j + 1) b' 0 (by omega) (by omega) ?_
          have hb : N - j = b' + 1 := by omega
          have hb2 : N - (j + 1) = b' := by omega
          rw [hb2]
          rw [hb] at hfuel
          have hexp : (b' + 1) * (b' + 1) = b' * b' + 2 * b' + 1 := by ring
          rw [hexp] at hfuel
          generalize hKdef : b' * b' = K at hfuel ⊢
          omega

theorem acquireAll_eq (N : Nat) : acquireAll N = rlConfig 500 N 0 0 N := by
  induction N with
  | zero =>
    simp [acquireAll, rateLimiterNew, rlConfig]
  | succ N ih =>
    have hc : List.range' 1 (N + 1) = List.range' 1 N ++ [1 + N] := by
      have h0 := @List.range'_concat 1 1 N
      simpa using h0
    have hfold : acquireAll (N + 1) = acquire 0 (1 + N) (acquireAll N) := by
      rw [acquireAll, hc, List.foldl_append]
      rfl
    have hq1 : List.range' 1 (N + 1) = 1 :: List.range' 2 N := List.range'_succ 1 N 1
    rw [hfold, ih, acquire]
    simp only [rlConfig, Nat.sub_zero, Nat.mul_zero, Nat.zero_add, List.replicate_zero,
      List.nil_append, List.range'_zero, List.map_nil]
    rw [← hc, hq1]
    simp only [processQueue, Nat.sub_self]
    rw [if_neg (by omega)]
    simp only [RLState.mk.injEq, Nat.zero_add]
    refine ⟨trivial, trivial, trivial, ?_, trivial⟩
    exact (List.replicate_succ' N 500).symm

theorem chkProg_mul (r : Nat) :
    ∀ (n s : Nat), chkProg r (r * s) ((List.range' (s + 1) n).map (fun i => r * i)) = true := by
  intro n
  induction n with
  | zero => intro s; rfl
  | succ n ih =>
    intro s
    rw [List.range'_succ (s + 1) n 1, List.map_cons, chkProg, Bool.and_eq_true]
    refine ⟨by simp [Nat.mul_succ], ?_⟩
    rw [show r * s + r = r * (s + 1) from (Nat.mul_succ r s).symm]
    exact ih (s + 1)

theorem chkSpaced_mul (r : Nat) :
    ∀ (n s : Nat), chkSpaced r ((List.range' s n).map (fun i => r * i)) = true := by
  intro n
  induction n with
  | zero => intro s; rfl
  | succ n ih =>
    intro s
    cases n with
    | zero => rfl
    | succ n2 =>
      rw [List.range'_succ s (n2 + 1) 1, List.range'_succ (s + 1) n2 1, List.map_cons,
        List.map_cons, chkSpaced, Bool.and_eq_true]
      refine ⟨by simp [Nat.mul_succ], ?_⟩
      have h2 := ih (s + 1)
      rw [List.range'_succ (s + 1) n2 1, List.map_cons] at h2
      exact h2

/-- C1: for every burst of N acquire() calls issued at time 0 on a fresh
rate limiter with the default budget of 2 requests per second (minimum
spacing 1000/2 = 500 ms), running the event loop to quiescence resolves
waiter i at exactly 500 * i for i = 1..N: every waiter is resolved, the
queue drains, resolution order is the strict FIFO call order, consecutive
resolutions are never closer than the minimum spacing, and the k-th
resolution occurs no earlier than (k-1) times the spacing after the
first. -/
theorem rateLimiter_fifo_and_spacing (N : Nat) :
    (rlRun ((N + 1) * (N + 1)) (acquireAll N)).log =
      (List.range' 1 N).map (fun i => (i, 500 * i)) ∧
    (rlRun ((N + 1) * (N + 1)) (acquireAll N)).queue = [] ∧
    (rlRun ((N + 1) * (N + 1)) (acquireAll N)).log.map Prod.fst = List.range' 1 N ∧
    chkSpaced 500 ((rlRun ((N + 1) * (N + 1)) (acquireAll N)).log.map Prod.snd) = true ∧
    chkFromFirst 500 ((rlRun ((N + 1) * (N + 1)) (acquireAll N)).log.map Prod.snd) = true := by
  have hrun : rlRun ((N + 1) * (N + 1)) (acquireAll N) = rlConfig 500 N N 0 0 := by
    rw [acquireAll_eq]
    refine rlRun_config 500 N (by omega) ((N + 1) * (N + 1)) 0 0 N (by omega) (by omega) ?_
    rw [Nat.sub_zero]
    have h1 : N * N ≤ (N + 1) * (N + 1) := Nat.mul_le_mul (Nat.le_succ N) (Nat.le_succ N)
    omega
  rw [hrun]
  simp only [rlConfig, Nat.sub_self, List.range'_zero, List.replicate_zero, List.nil_append]
  have hsnd : (Prod.snd ∘ fun i => (i, 500 * i)) = fun i => 500 * i := rfl
  refine ⟨trivial, trivial, ?_, ?_, ?_⟩
  · rw [List.map_map]
    have hfst : (Prod.fst ∘ fun i => (i, 500 * i)) = id := rfl
    rw [hfst, List.map_id]
  · rw [List.map_map, hsnd]
    exact chkSpaced_mul 500 N 1
  · rw [List.map_map, hsnd]
    cases N with
    | zero => rfl
    | succ M =>
      rw [List.range'_succ 1 M 1, List.map_cons, chkFromFirst]
      exact chkProg_mul 500 M 1
